import Mathlib

/-!
Shallow embedding of the AI-code-detector core of this repository
(`app_simple.py`: class `AdvancedAIDetector`; `app.py`:
`detect_ai_generated_code`; `config.py`: `Config`).

Conventions of the embedding:
* Python text is modelled as `List Char` (obtained from a `String` via
  `.data`); character classes are the ASCII cores of Python's `re` classes.
* Python `float` arithmetic is modelled over `ℚ`.  `numpy.std` values are
  represented by their square (the population variance `npVarNat`), because
  the square root of a rational is irrational in general; every comparison
  `std < c` performed by the source is translated to `variance < c^2`,
  which is equivalent for nonnegative numbers (lemma `sqrt_lt_iff_var_lt`).
* `ast.parse` is an external (standard-library) dependency; it is passed
  in as a parameter `parse : String → Option Ast`, where `none` models a
  raised `SyntaxError` and `Ast` keeps exactly the node information the
  source inspects (the node kind and the child list).
* Operations that can raise in Python (`max`/`min` of an empty sequence,
  division by zero, `%` by zero, `ast.parse`) additionally get
  `Option`-valued variants, used by the `...O` versions of the extractors,
  which mirror the source including its guards; the theorem for claim C6
  shows they never return `none`.
-/

set_option maxRecDepth 20000

namespace Detect

/-- ASCII core of Python's `str` whitespace (`str.strip`, `str.split`, `\s`). -/
def pyWhitespace (c : Char) : Bool :=
  c = ' ' || c = '\t' || c = '\n' || c = '\r' || c = '\x0b' || c = '\x0c'

/-- ASCII core of Python's regex word character `\w` : `[a-zA-Z0-9_]`. -/
def pyWordChar (c : Char) : Bool :=
  c.isAlpha || c.isDigit || c = '_'

/-- `a`, `e`, `i`, `o`, `u` in either case (the `[aeiou]` class under
`re.IGNORECASE`). -/
def isVowel (c : Char) : Bool :=
  let l := c.toLower
  l = 'a' || l = 'e' || l = 'i' || l = 'o' || l = 'u'

/-- Python `str.splitlines` (ASCII line breaks `\n`, `\r`, `\r\n`):
`""` gives `[]`, a trailing line break does not create an empty last line. -/
def splitLinesCore : List Char → List Char → List (List Char)
  | [], acc => if acc.isEmpty then [] else [acc.reverse]
  | '\r' :: '\n' :: rest, acc => acc.reverse :: splitLinesCore rest []
  | '\r' :: rest, acc => acc.reverse :: splitLinesCore rest []
  | '\n' :: rest, acc => acc.reverse :: splitLinesCore rest []
  | c :: rest, acc => splitLinesCore rest (c :: acc)

/-- `code.splitlines()` on the character list of the input. -/
def pyLines (code : String) : List (List Char) :=
  splitLinesCore code.data []

/-- A line is blank when `line.strip()` is falsy, i.e. every character is
whitespace. -/
def isBlank (l : List Char) : Bool :=
  l.all pyWhitespace

/-- `len(line) - len(line.lstrip())`: the number of leading whitespace
characters of a line. -/
def leadingWs (l : List Char) : ℕ :=
  (l.takeWhile pyWhitespace).length

/-- Maximal runs of characters satisfying `p` (used for `\b\w+\b` style
tokenisation and for `str.split()`). -/
def runsBy (p : Char → Bool) (cs : List Char) : List (List Char) :=
  let st := cs.foldr
    (fun c (st : List Char × List (List Char)) =>
      if p c then (c :: st.1, st.2)
      else ([], if st.1.isEmpty then st.2 else st.1 :: st.2))
    ([], [])
  if st.1.isEmpty then st.2 else st.1 :: st.2

/-- Maximal word-character runs of the input. -/
def wordRuns (cs : List Char) : List (List Char) :=
  runsBy pyWordChar cs

/-- Alternating segmentation into word-character runs (`true`) and
non-word-character runs (`false`); adjacent equal tags are merged. -/
def segsBy (p : Char → Bool) (cs : List Char) : List (Bool × List Char) :=
  cs.foldr
    (fun c acc =>
      let w := p c
      match acc with
      | (b, run) :: t => if b = w then (w, c :: run) :: t else (w, [c]) :: (b, run) :: t
      | [] => [(w, [c])])
    []

/-- Python `max(xs)` for a nonempty list, with an explicit default (the
source always guards the empty case). -/
def listMaxD (xs : List ℕ) (d : ℕ) : ℕ :=
  match xs with
  | [] => d
  | x :: r => r.foldl max x

/-- Python `min(xs)` for a nonempty list, with an explicit default. -/
def listMinD (xs : List ℕ) (d : ℕ) : ℕ :=
  match xs with
  | [] => d
  | x :: r => r.foldl min x

/-- `numpy.mean` of a list of naturals, as a rational (the source guards
every use with a nonemptiness check). -/
def natMean (xs : List ℕ) : ℚ :=
  ((xs.sum : ℚ)) / (xs.length : ℚ)

/-- The square of `numpy.std` (population variance) of a list of naturals:
mean of squared deviations from the mean. -/
def npVarNat (xs : List ℕ) : ℚ :=
  ((xs.map (fun x => ((x : ℚ) - natMean xs) ^ 2)).sum) / (xs.length : ℚ)

/-- `re.findall(r'#.*', code)`: since `.` does not match `\n`, each match
runs from a `#` to the end of its line; scanning is non-overlapping, so
each line containing `#` contributes one match, from its first `#`. -/
def pythonCommentsGo : ℕ → List Char → List (List Char)
  | 0, _ => []
  | _ + 1, [] => []
  | fuel + 1, c :: rest =>
    if c = '#' then
      ((c :: rest).takeWhile (· != '\n')) :: pythonCommentsGo fuel ((c :: rest).dropWhile (· != '\n'))
    else pythonCommentsGo fuel rest

/-- All `#`-comments of the text, as found by `re.findall(r'#.*', code)`. -/
def pythonComments (cs : List Char) : List (List Char) :=
  pythonCommentsGo (cs.length + 1) cs

/-- Three double quotes. -/
def tripleQuote : List Char := ['"', '"', '"']

/-- Rest of the input after the first occurrence of `"""` (if any). -/
def findTripleGo : ℕ → List Char → Option (List Char)
  | 0, _ => none
  | _ + 1, [] => none
  | fuel + 1, c :: rest =>
    if tripleQuote.isPrefixOf (c :: rest) then some (rest.drop 2)
    else findTripleGo fuel rest

/-- Number of matches of `re.findall(r'""".*?"""', code, re.DOTALL)`: pairs
of `"""` delimiters, scanned left to right, each closing delimiter being
the first one at least three characters after its opener.  When an opener
has no closer, no further match exists anywhere (any later closer would
also close this opener), so scanning stops. -/
def docstringCountGo : ℕ → List Char → ℕ
  | 0, _ => 0
  | fuel + 1, cs =>
    match findTripleGo (cs.length + 1) cs with
    | none => 0
    | some afterOpen =>
      match findTripleGo (afterOpen.length + 1) afterOpen with
      | none => 0
      | some afterClose => 1 + docstringCountGo fuel afterClose

/-- Count of docstring-style `"""..."""` blocks. -/
def docstringCount (cs : List Char) : ℕ :=
  docstringCountGo (cs.length + 1) cs

/-- Python's `needle in haystack` substring test. -/
def containsSubGo (needle : List Char) : ℕ → List Char → Bool
  | 0, _ => false
  | _ + 1, [] => needle.isEmpty
  | fuel + 1, c :: rest => needle.isPrefixOf (c :: rest) || containsSubGo needle fuel rest

/-- Python's `needle in haystack` substring test. -/
def containsSub (needle hay : List Char) : Bool :=
  containsSubGo needle (hay.length + 1) hay

/-- A `\b` word boundary holds before a word character exactly when the
preceding character (if any) is not a word character. -/
def atBoundary : Option Char → Bool
  | none => true
  | some p => !(pyWordChar p)

/-- Does `a\s+[aeiou]|an\s+[^aeiou]` (under `re.IGNORECASE`) match at the
head of `l`?  The caller checks the `\b` before the group.  In the second
alternative `[^aeiou]` also matches whitespace, so a whitespace run of
length at least two completes the match by itself. -/
def articleAt (l : List Char) : Bool :=
  match l with
  | [] => false
  | a :: rest =>
    a.toLower = 'a' &&
      ((let ws := rest.takeWhile pyWhitespace
        let after := rest.dropWhile pyWhitespace
        !ws.isEmpty && (match after with | v :: _ => isVowel v | [] => false))
       ||
       (match rest with
        | [] => false
        | n :: rest2 =>
          n.toLower = 'n' &&
            (let ws2 := rest2.takeWhile pyWhitespace
             let after2 := rest2.dropWhile pyWhitespace
             !ws2.isEmpty &&
               (2 ≤ ws2.length || (match after2 with | c :: _ => !(isVowel c) | [] => false)))))

/-- `re.search(r'\b(a\s+[aeiou]|an\s+[^aeiou])', comment, re.IGNORECASE)`:
scan every position, tracking the previous character for the boundary. -/
def hasArticleIssueGo : Option Char → List Char → Bool
  | _, [] => false
  | prev, c :: rest =>
    (atBoundary prev && articleAt (c :: rest)) || hasArticleIssueGo (some c) rest

/-- Whether the first comment-grammar heuristic regex matches. -/
def hasArticleIssue (cs : List Char) : Bool :=
  hasArticleIssueGo none cs

/-- After `are`/`is`: `\s+\w+ing\b`, i.e. a nonempty whitespace run and
then a maximal word run of length at least four ending in `ing`. -/
def tenseCont (rest : List Char) : Bool :=
  let ws := rest.takeWhile pyWhitespace
  let run := (rest.dropWhile pyWhitespace).takeWhile pyWordChar
  !ws.isEmpty && 4 ≤ run.length &&
    (run.drop (run.length - 3)).map Char.toLower = ['i', 'n', 'g']

/-- Does `(are|is)\s+\w+ing\b` (IGNORECASE) match at the head of `l`?
The caller checks the `\b` before the group. -/
def tenseAt (l : List Char) : Bool :=
  match l with
  | a :: r :: e :: rest =>
    (a.toLower = 'a' && r.toLower = 'r' && e.toLower = 'e' && tenseCont rest) ||
    (a.toLower = 'i' && r.toLower = 's' && tenseCont (e :: rest))
  | a :: r :: rest => a.toLower = 'i' && r.toLower = 's' && tenseCont rest
  | _ => false

/-- `re.search(r'\b(are|is)\s+\w+ing\b', comment, re.IGNORECASE)`. -/
def hasTenseIssueGo : Option Char → List Char → Bool
  | _, [] => false
  | prev, c :: rest =>
    (atBoundary prev && tenseAt (c :: rest)) || hasTenseIssueGo (some c) rest

/-- Whether the second comment-grammar heuristic regex matches. -/
def hasTenseIssue (cs : List Char) : Bool :=
  hasTenseIssueGo none cs

/-- `re.findall(r'\b[a-zA-Z_][a-zA-Z0-9_]*\b', code)`: the maximal word
runs that start with a letter or underscore (runs starting with a digit
contain no internal word boundary, so they produce no match at all). -/
def identifierRuns (cs : List Char) : List (List Char) :=
  (wordRuns cs).filter (fun r => match r with | c :: _ => c.isAlpha || c = '_' | [] => false)

/-- Does a maximal word run match `\b<base>\d*\b` (or `\d+` when
`needsDigit`) under `re.IGNORECASE`? -/
def matchesAiVar (base : List Char) (needsDigit : Bool) (run : List Char) : Bool :=
  let lower := run.map Char.toLower
  base.isPrefixOf lower &&
    (let rest := lower.drop base.length
     rest.all Char.isDigit && (!needsDigit || !rest.isEmpty))

/-- The `ai_variable_patterns` of `_analyze_naming_patterns` (app_simple.py
108-114): `\bvar\d+\b`, `\btemp\d*\b`, `\bresult\d*\b`, `\bdata\d*\b`,
`\bvalue\d*\b`, all IGNORECASE. -/
def aiVariablePatterns : List (List Char × Bool) :=
  [("var".data, true), ("temp".data, false), ("result".data, false),
   ("data".data, false), ("value".data, false)]

/-- `ai_variable_count`: total number of matches over all five patterns. -/
def aiVariableCount (cs : List Char) : ℕ :=
  (aiVariablePatterns.map (fun p => (wordRuns cs).countP (matchesAiVar p.1 p.2))).sum

/-- The keyword searched by the function pattern. -/
def defKeyword : List Char := ['d', 'e', 'f']

/-- `re.findall(r'\bdef\s+([a-zA-Z_][a-zA-Z0-9_]*)\b', code)` over the
word/non-word segmentation: a full word `def`, a nonempty all-whitespace
gap, then a word run starting with a letter or underscore (the captured
name); scanning resumes after the captured name. -/
def functionNamesGo : ℕ → List (Bool × List Char) → List (List Char)
  | 0, _ => []
  | _ + 1, [] => []
  | fuel + 1, (true, w) :: (false, gap) :: (true, name) :: rest2 =>
    if w = defKeyword && !gap.isEmpty && gap.all pyWhitespace &&
        (match name with | c :: _ => c.isAlpha || c = '_' | [] => false) then
      name :: functionNamesGo fuel rest2
    else functionNamesGo fuel ((false, gap) :: (true, name) :: rest2)
  | fuel + 1, _ :: rest => functionNamesGo fuel rest

/-- The function names defined in the text (each scanning step consumes at
least one segment, so a segment-count fuel suffices). -/
def functionNames (cs : List Char) : List (List Char) :=
  functionNamesGo ((segsBy pyWordChar cs).length + 1) (segsBy pyWordChar cs)

/-- Consume a literal. -/
def expectLit (lit cs : List Char) : Option (List Char) :=
  if lit.isPrefixOf cs then some (cs.drop lit.length) else none

/-- Consume `\s+` when followed by a non-whitespace element: the maximal
whitespace run, required nonempty. -/
def expectWsPlus (cs : List Char) : Option (List Char) :=
  if (cs.takeWhile pyWhitespace).isEmpty then none else some (cs.dropWhile pyWhitespace)

/-- Consume `\s*` when followed by a non-whitespace element. -/
def skipWs (cs : List Char) : List Char :=
  cs.dropWhile pyWhitespace

/-- Consume `\w+` when followed by a non-word element: the maximal word
run, required nonempty. -/
def expectWordPlus (cs : List Char) : Option (List Char) :=
  if (cs.takeWhile pyWordChar).isEmpty then none else some (cs.dropWhile pyWordChar)

/-- Consume `\s*\n\s*` when followed by a non-whitespace element: the
maximal whitespace run, required to contain a newline. -/
def expectWsNewline (cs : List Char) : Option (List Char) :=
  if (cs.takeWhile pyWhitespace).contains '\n' then some (cs.dropWhile pyWhitespace) else none

/-- Matcher for `for\s+\w+\s+in\s+range\s*\(` at the head of the input;
returns the rest after the match.  Every quantified class here is followed
by a disjoint class, so maximal munch is the unique parse. -/
def matchForRange (cs : List Char) : Option (List Char) := do
  let r1 ← expectLit "for".data cs
  let r2 ← expectWsPlus r1
  let r3 ← expectWordPlus r2
  let r4 ← expectWsPlus r3
  let r5 ← expectLit "in".data r4
  let r6 ← expectWsPlus r5
  let r7 ← expectLit "range".data r6
  expectLit ['('] (skipWs r7)

/-- Matcher for `if\s+__name__\s*==\s*['"]__main__['"]` at the head of the
input (each quote class matches either quote character independently). -/
def matchMainGuard (cs : List Char) : Option (List Char) := do
  let r1 ← expectLit "if".data cs
  let r2 ← expectWsPlus r1
  let r3 ← expectLit "__name__".data r2
  let r4 ← expectLit "==".data (skipWs r3)
  match skipWs r4 with
  | [] => none
  | q1 :: r6 =>
    if q1 = '\'' || q1 = '"' then do
      let r7 ← expectLit "__main__".data r6
      match r7 with
      | [] => none
      | q2 :: r8 => if q2 = '\'' || q2 = '"' then some r8 else none
    else none

/-- Matcher for `try:\s*\n\s*except\s+Exception` at the head of the input. -/
def matchTryExcept (cs : List Char) : Option (List Char) := do
  let r1 ← expectLit "try:".data cs
  let r2 ← expectWsNewline r1
  let r3 ← expectLit "except".data r2
  let r4 ← expectWsPlus r3
  expectLit "Exception".data r4

/-- Matcher for `def\s+\w+\s*\([^)]*\):\s*\n\s*"""[^"]*"""` at the head of
the input (`[^)]` and `[^"]` also match newlines). -/
def matchDefDocstring (cs : List Char) : Option (List Char) := do
  let r1 ← expectLit "def".data cs
  let r2 ← expectWsPlus r1
  let r3 ← expectWordPlus r2
  let r4 ← expectLit ['('] (skipWs r3)
  let body := r4.takeWhile (· != ')')
  let r5 ← expectLit [')'] (r4.drop body.length)
  let r6 ← expectLit [':'] r5
  let r7 ← expectWsNewline r6
  let r8 ← expectLit tripleQuote r7
  let doc := r8.takeWhile (· != '"')
  expectLit tripleQuote (r8.drop doc.length)

/-- `len(re.findall(pattern, ...))`: non-overlapping left-to-right count;
on a match the scan resumes after it, otherwise it advances one position.
Each matcher used here consumes at least one character, so an input-length
fuel suffices. -/
def countMatchesGo (m : List Char → Option (List Char)) : ℕ → List Char → ℕ
  | 0, _ => 0
  | _ + 1, [] => 0
  | fuel + 1, c :: rest =>
    match m (c :: rest) with
    | some r => 1 + countMatchesGo m fuel r
    | none => countMatchesGo m fuel rest

/-- Number of matches of `m` in the text. -/
def countMatches (m : List Char → Option (List Char)) (cs : List Char) : ℕ :=
  countMatchesGo m (cs.length + 1) cs

/-- `bool(re.search(pattern, ...))`: some position matches. -/
def searchMatch (m : List Char → Option (List Char)) : List Char → Bool
  | [] => false
  | c :: rest => (m (c :: rest)).isSome || searchMatch m rest

/-- The operator characters of `_analyze_style_consistency`:
`[+\-*/=<>!&|]`. -/
def opChars : List Char := ['+', '-', '*', '/', '=', '<', '>', '!', '&', '|']

/-- The operator occurrences of one line. -/
def lineOperators (l : List Char) : List Char :=
  l.filter (fun c => opChars.contains c)

/-- The source's per-occurrence spacing test: the line contains
`' c '`, `'c '` or `' c'` as a substring (anywhere in the line). -/
def opSpaced (l : List Char) (c : Char) : Bool :=
  containsSub [' ', c, ' '] l || containsSub [c, ' '] l || containsSub [' ', c] l

/-- `common_libraries` of `_analyze_semantic_patterns` (app_simple.py 231). -/
def commonLibraries : List (List Char) :=
  ["numpy".data, "pandas".data, "matplotlib".data,
   "tensorflow".data, "sklearn".data, "requests".data]

/-- `sum(1 for lib in common_libraries if lib in code.lower())`. -/
def commonLibraryCount (cs : List Char) : ℕ :=
  (commonLibraries.filter (fun lib => containsSub lib (cs.map Char.toLower))).length

/-- `AdvancedAIDetector._check_indentation_consistency` (app_simple.py
198-214): over the non-blank lines' indentations; `1.0` when there are
none, `0.5` when the minimal indentation is `0`, otherwise the fraction of
indentations divisible by the minimal one. -/
def checkIndentationConsistency (lines : List (List Char)) : ℚ :=
  let indentations := (lines.filter (fun l => ¬ isBlank l)).map leadingWs
  if indentations.isEmpty then 1
  else
    let min_indent := listMinD indentations 0
    if min_indent = 0 then 1/2
    else ((indentations.countP (fun i => i % min_indent = 0) : ℚ)) / (indentations.length : ℚ)

/-! ### Syntax tree and complexity analysis -/

/-- The node distinctions `_calculate_cyclomatic_complexity` and
`_calculate_max_nesting` make on a Python `ast` tree: the six decision
node classes and everything else. -/
inductive AstKind where
  | ifK | whileK | forK | asyncForK | exceptHandlerK | withK | otherK
deriving DecidableEq

/-- A syntax tree carrying exactly what the complexity analyzer inspects:
the node kind and the child list (`ast.iter_child_nodes`). -/
inductive Ast where
  | node (kind : AstKind) (children : List Ast)

/-- The kind of the root node. -/
def Ast.kind : Ast → AstKind
  | .node k _ => k

/-- Nodes that increment cyclomatic complexity: `If`, `While`, `For`,
`AsyncFor`, `ExceptHandler`, `With` (app_simple.py 149-155). -/
def isDecisionKind : AstKind → Bool
  | .otherK => false
  | _ => true

/-- Nodes that increment nesting depth: `If`, `While`, `For`, `AsyncFor`,
`With` — not `ExceptHandler` (app_simple.py 168). -/
def isNestKind : AstKind → Bool
  | .ifK | .whileK | .forK | .asyncForK | .withK => true
  | _ => false

mutual

/-- Number of decision nodes in the whole tree (`ast.walk` visits every
node, the root included). -/
def astDecisionCount : Ast → ℕ
  | .node k cs => (if isDecisionKind k then 1 else 0) + astListDecisionCount cs

/-- Decision-node count of a forest. -/
def astListDecisionCount : List Ast → ℕ
  | [] => 0
  | a :: rest => astDecisionCount a + astListDecisionCount rest

end

mutual

/-- `_calculate_max_nesting(tree, current_depth, max_depth)`
(app_simple.py 163-173): take the running maximum at this node, then fold
over the children, incrementing the depth only for nesting-kind children. -/
def maxNesting : Ast → ℕ → ℕ → ℕ
  | .node _ cs, cur, md => maxNestingList cs cur (max md cur)

/-- The child loop of `_calculate_max_nesting`, threading `max_depth`. -/
def maxNestingList : List Ast → ℕ → ℕ → ℕ
  | [], _, md => md
  | c :: rest, cur, md =>
    maxNestingList rest cur
      (if isNestKind c.kind then maxNesting c (cur + 1) md else maxNesting c cur md)

end

/-- The dictionary returned by `_analyze_complexity`. -/
structure ComplexityFeatures where
  cyclomatic_complexity : ℕ
  nesting_depth : ℕ
  branch_count : ℕ
deriving DecidableEq, Inhabited

/-- `_calculate_cyclomatic_complexity` (app_simple.py 145-161): base 1
plus one per decision node; branch count is complexity minus one. -/
def calculateCyclomaticComplexity (tree : Ast) : ComplexityFeatures :=
  let complexity := 1 + astDecisionCount tree
  { cyclomatic_complexity := complexity
    nesting_depth := maxNesting tree 0 0
    branch_count := complexity - 1 }

/-- `_analyze_complexity` (app_simple.py 132-143): try to parse; on
success compute the metrics, on any parse failure return the defaults
`{1, 1, 0}`.  `parse` stands for `ast.parse`, with `none` for a raised
`SyntaxError`. -/
def analyzeComplexity (parse : String → Option Ast) (code : String) : ComplexityFeatures :=
  match parse code with
  | some tree => calculateCyclomaticComplexity tree
  | none => { cyclomatic_complexity := 1, nesting_depth := 1, branch_count := 0 }

/-! ### Feature extraction (`extract_features`) -/

/-- The dictionary returned by `_analyze_code_structure` (app_simple.py
55-76).  `indent_consistency` is `np.std(indentations)` in the source; it
is represented here by its square, the population variance `npVarNat`
(see `sqrt_lt_iff_var_lt`). -/
structure StructureFeatures where
  avg_indentation : ℚ
  indent_consistency : ℚ
  avg_line_length : ℚ
  max_line_length : ℕ
  empty_lines_ratio : ℚ
deriving DecidableEq

/-- `_analyze_code_structure` (app_simple.py 55-76). -/
def analyzeCodeStructure (code : String) : StructureFeatures :=
  let lines := pyLines code
  let nonEmpty := lines.filter (fun l => !isBlank l)
  let indentations := nonEmpty.map leadingWs
  let lineLengths := nonEmpty.map List.length
  { avg_indentation := if !indentations.isEmpty then natMean indentations else 0
    indent_consistency := if 1 < indentations.length then npVarNat indentations else 0
    avg_line_length := if !lineLengths.isEmpty then natMean lineLengths else 0
    max_line_length := if !lineLengths.isEmpty then listMaxD lineLengths 0 else 0
    empty_lines_ratio :=
      if !lines.isEmpty then ((lines.length - nonEmpty.length : ℕ) : ℚ) / (lines.length : ℚ)
      else 0 }

/-- The dictionary returned by `_analyze_comments` (app_simple.py 78-99). -/
structure CommentFeatures where
  comment_count : ℕ
  comment_ratio : ℚ
  comment_grammar_issues : ℕ
  has_docstrings : Bool
deriving DecidableEq

/-- `_analyze_comments` (app_simple.py 78-99): `#`-comments plus
docstrings; each `#`-comment contributes one issue per grammar heuristic
that fires on it. -/
def analyzeComments (code : String) : CommentFeatures :=
  let cs := code.data
  let comments := pythonComments cs
  let docs := docstringCount cs
  let issues := (comments.map (fun c =>
    (if hasArticleIssue c then 1 else 0) + (if hasTenseIssue c then 1 else 0))).sum
  { comment_count := comments.length + docs
    comment_ratio :=
      if !(pyLines code).isEmpty then ((comments.length + docs : ℕ) : ℚ) / ((pyLines code).length : ℚ)
      else 0
    comment_grammar_issues := issues
    has_docstrings := 0 < docs }

/-- The dictionary returned by `_analyze_naming_patterns` (app_simple.py
101-130). -/
structure NamingFeatures where
  variable_count : ℕ
  ai_variable_count : ℕ
  function_count : ℕ
  avg_variable_length : ℚ
  avg_function_length : ℚ
deriving DecidableEq

/-- `_analyze_naming_patterns` (app_simple.py 101-130):
`variable_count` is the number of distinct identifier occurrences
(`len(set(variables))`); the averages are over all occurrences. -/
def analyzeNamingPatterns (code : String) : NamingFeatures :=
  let cs := code.data
  let idents := identifierRuns cs
  let functions := functionNames cs
  { variable_count := idents.dedup.length
    ai_variable_count := aiVariableCount cs
    function_count := functions.length
    avg_variable_length :=
      if !idents.isEmpty then natMean (idents.map List.length) else 0
    avg_function_length :=
      if !functions.isEmpty then natMean (functions.map List.length) else 0 }

/-- The dictionary returned by `_analyze_style_consistency` (app_simple.py
175-196). -/
structure StyleFeatures where
  operator_spacing_consistency : ℚ
  consistent_indentation : ℚ
deriving DecidableEq

/-- `_analyze_style_consistency` (app_simple.py 175-196): per line, each
operator-character occurrence counts as spaced when the line contains it
with surrounding spaces anywhere. -/
def analyzeStyleConsistency (code : String) : StyleFeatures :=
  let lines := pyLines code
  let totalOperators := (lines.map (fun l => (lineOperators l).length)).sum
  let spaced := (lines.map (fun l => ((lineOperators l).filter (opSpaced l)).length)).sum
  { operator_spacing_consistency :=
      if 0 < totalOperators then (spaced : ℚ) / (totalOperators : ℚ) else 1
    consistent_indentation := checkIndentationConsistency lines }

/-- The dictionary returned by `_analyze_semantic_patterns`
(app_simple.py 216-238). -/
structure SemanticFeatures where
  ai_pattern_matches : ℕ
  common_library_count : ℕ
  has_main_guard : Bool
deriving DecidableEq

/-- The four `ai_patterns` regexes of `_analyze_semantic_patterns`
(app_simple.py 219-224). -/
def aiPatternMatchers : List (List Char → Option (List Char)) :=
  [matchForRange, matchMainGuard, matchTryExcept, matchDefDocstring]

/-- `_analyze_semantic_patterns` (app_simple.py 216-238). -/
def analyzeSemanticPatterns (code : String) : SemanticFeatures :=
  let cs := code.data
  { ai_pattern_matches := (aiPatternMatchers.map (fun m => countMatches m cs)).sum
    common_library_count := commonLibraryCount cs
    has_main_guard := searchMatch matchMainGuard cs }

/-- The feature record built by `extract_features` (app_simple.py 26-53):
the union of the basic metrics and the six analyzer dictionaries (their
key sets are disjoint). -/
structure FeatureRecord where
  lines_of_code : ℕ
  characters : ℕ
  words : ℕ
  avg_indentation : ℚ
  /-- `np.std` of the indentations, represented by its square
  (population variance); see `sqrt_lt_iff_var_lt`. -/
  indent_consistency : ℚ
  avg_line_length : ℚ
  max_line_length : ℕ
  empty_lines_ratio : ℚ
  comment_count : ℕ
  comment_ratio : ℚ
  comment_grammar_issues : ℕ
  has_docstrings : Bool
  variable_count : ℕ
  ai_variable_count : ℕ
  function_count : ℕ
  avg_variable_length : ℚ
  avg_function_length : ℚ
  cyclomatic_complexity : ℕ
  nesting_depth : ℕ
  branch_count : ℕ
  operator_spacing_consistency : ℚ
  consistent_indentation : ℚ
  ai_pattern_matches : ℕ
  common_library_count : ℕ
  has_main_guard : Bool
deriving DecidableEq, Inhabited

/-- `AdvancedAIDetector.extract_features` (app_simple.py 26-53). -/
def extractFeatures (parse : String → Option Ast) (code : String) : FeatureRecord :=
  let st := analyzeCodeStructure code
  let cm := analyzeComments code
  let nm := analyzeNamingPatterns code
  let cx := analyzeComplexity parse code
  let sty := analyzeStyleConsistency code
  let sem := analyzeSemanticPatterns code
  { lines_of_code := (pyLines code).length
    characters := code.data.length
    words := (runsBy (fun c => !pyWhitespace c) code.data).length
    avg_indentation := st.avg_indentation
    indent_consistency := st.indent_consistency
    avg_line_length := st.avg_line_length
    max_line_length := st.max_line_length
    empty_lines_ratio := st.empty_lines_ratio
    comment_count := cm.comment_count
    comment_ratio := cm.comment_ratio
    comment_grammar_issues := cm.comment_grammar_issues
    has_docstrings := cm.has_docstrings
    variable_count := nm.variable_count
    ai_variable_count := nm.ai_variable_count
    function_count := nm.function_count
    avg_variable_length := nm.avg_variable_length
    avg_function_length := nm.avg_function_length
    cyclomatic_complexity := cx.cyclomatic_complexity
    nesting_depth := cx.nesting_depth
    branch_count := cx.branch_count
    operator_spacing_consistency := sty.operator_spacing_consistency
    consistent_indentation := sty.consistent_indentation
    ai_pattern_matches := sem.ai_pattern_matches
    common_library_count := sem.common_library_count
    has_main_guard := sem.has_main_guard }

/-! ### Scoring engine (`detect_ai_generated`) -/

/-- The `scoring_rules` table of `detect_ai_generated` (app_simple.py
249-267): `(predicate value, weight)` pairs, in source order.  The fifth
rule reads the `indent_consistency` feature (the `np.std` signal, here
its square compared against `0.8 ^ 2`) — not `consistent_indentation`. -/
def scoringRules (f : FeatureRecord) : List (Bool × ℕ) :=
  [ (decide (3 < f.ai_variable_count), 20),
    (decide (2 < f.comment_grammar_issues), 15),
    (decide (2 < f.common_library_count), 10),
    (decide (2 < f.ai_pattern_matches), 15),
    (decide (f.indent_consistency < (8/10) ^ 2), 8),
    (decide (f.operator_spacing_consistency < 7/10), 8),
    (decide (5 < f.function_count), 6),
    (decide (5 < f.cyclomatic_complexity), 6),
    (decide ((100 : ℚ) < f.avg_line_length), 3),
    (decide (120 < f.max_line_length), 3),
    (f.has_docstrings, 2),
    (f.has_main_guard, 2) ]

/-- The scoring loop (app_simple.py 269-272): one pass accumulating
`(ai_score, max_score)`; each weight is added to `max_score`
unconditionally and to `ai_score` only when the predicate held. -/
def scorePass (rules : List (Bool × ℕ)) : ℕ × ℕ :=
  rules.foldl (fun acc r => (acc.1 + if r.1 then r.2 else 0, acc.2 + r.2)) (0, 0)

/-- `ai_percentage = (ai_score / max_score * 100) if max_score > 0 else 0`
(app_simple.py 274), before rounding. -/
def aiPercentageRaw (f : FeatureRecord) : ℚ :=
  let p := scorePass (scoringRules f)
  if 0 < p.2 then (p.1 : ℚ) / (p.2 : ℚ) * 100 else 0

/-- Python `round(q, 2)` on the ideal (rational) value: round half to
even at two decimal places. -/
def pyRound2 (q : ℚ) : ℚ :=
  ((if q * 100 - (⌊q * 100⌋ : ℚ) < 1/2 then ⌊q * 100⌋
    else if 1/2 < q * 100 - (⌊q * 100⌋ : ℚ) then ⌊q * 100⌋ + 1
    else if ⌊q * 100⌋ % 2 = 0 then ⌊q * 100⌋ else ⌊q * 100⌋ + 1 : ℤ) : ℚ) / 100

/-- The five fixed clauses of `_generate_analysis_summary` (app_simple.py
288-301); only these five rules have clauses. -/
def summaryClauses (f : FeatureRecord) : List String :=
  (if 3 < f.ai_variable_count then ["Uses generic variable naming patterns"] else []) ++
  (if 2 < f.comment_grammar_issues then ["Contains grammar issues in comments"] else []) ++
  (if 2 < f.common_library_count then ["Heavy use of common AI libraries"] else []) ++
  (if f.indent_consistency < (8/10) ^ 2 then ["Inconsistent indentation patterns"] else []) ++
  (if 5 < f.function_count then ["High function density"] else [])

/-- The tier clause appended by the `if/elif/else` on the percentage
(app_simple.py 303-308); it is appended unconditionally. -/
def tierClause (pct : ℚ) : String :=
  if 50 ≤ pct then "Strong indicators of AI generation"
  else if 30 ≤ pct then "Moderate indicators of AI generation"
  else "Appears to be human-written"

/-- The `summary_parts` list at the end of `_generate_analysis_summary`. -/
def summaryParts (f : FeatureRecord) (pct : ℚ) : List String :=
  summaryClauses f ++ [tierClause pct]

/-- `_generate_analysis_summary` (app_simple.py 284-310):
`"; ".join(summary_parts) if summary_parts else "No significant patterns detected"`. -/
def generateAnalysisSummary (f : FeatureRecord) (pct : ℚ) : String :=
  if (summaryParts f pct).isEmpty then "No significant patterns detected"
  else String.intercalate "; " (summaryParts f pct)

/-- The result dictionary of `detect_ai_generated` (app_simple.py 277-282). -/
structure DetectionResult where
  is_ai_generated : Bool
  ai_percentage : ℚ
  features : FeatureRecord
  analysis_summary : String
deriving DecidableEq

/-- `AdvancedAIDetector.detect_ai_generated` (app_simple.py 240-282):
extract the features, run the scoring pass, compare the unrounded
percentage against the literal threshold `30`, and return the rounded
percentage together with the summary built from the unrounded one. -/
def detectAiGenerated (parse : String → Option Ast) (code : String) : DetectionResult :=
  let features := extractFeatures parse code
  let pct := aiPercentageRaw features
  { is_ai_generated := decide (30 ≤ pct)
    ai_percentage := pyRound2 pct
    features := features
    analysis_summary := generateAnalysisSummary features pct }

/-! ### Configuration (`config.py`) and the `app.py` detector -/

namespace Config

/-- `Config.AI_DETECTION_THRESHOLD` (config.py 24): the default value,
`30.0`, used when the environment variable is unset. -/
def AI_DETECTION_THRESHOLD : ℚ := 30

/-- The values of `Config.SCORING_WEIGHTS` (config.py 76-89), in
declaration order. -/
def SCORING_WEIGHTS : List ℕ := [20, 15, 10, 15, 8, 8, 6, 6, 3, 3, 2, 2]

end Config

/-- The thirteen boolean checks of `detect_ai_generated_code` (app.py
98-112), keyed as in the source `checks` dictionary.  Their values enter
the score only through this record (several of them call external
collaborators such as `language_tool_python`), so the record is the
scoring engine's entire input. -/
structure AppChecks where
  formatting : Bool
  comments : Bool
  library_usage : Bool
  repetitiveness : Bool
  complexity : Bool
  patterns : Bool
  magic_numbers : Bool
  commit_history : Bool
  tooling_and_formatting : Bool
  file_dependencies : Bool
  variable_naming : Bool
  algorithm_patterns : Bool
  refactoring_patterns : Bool
deriving DecidableEq, Inhabited

/-- `checks.values()` in source order. -/
def appChecksList (c : AppChecks) : List Bool :=
  [c.formatting, c.comments, c.library_usage, c.repetitiveness, c.complexity,
   c.patterns, c.magic_numbers, c.commit_history, c.tooling_and_formatting,
   c.file_dependencies, c.variable_naming, c.algorithm_patterns, c.refactoring_patterns]

/-- `ai_likelihood = sum(checks.values()) / len(checks) * 100` (app.py 115). -/
def appAiLikelihood (c : AppChecks) : ℚ :=
  (((appChecksList c).countP id : ℚ)) / ((appChecksList c).length : ℚ) * 100

/-- `is_ai_generated = ai_likelihood >= 30` (app.py 118). -/
def appIsAiGenerated (c : AppChecks) : Bool :=
  decide (30 ≤ appAiLikelihood c)

/-! ### Exception-aware variants

The operations below can raise in Python: `max`/`min` of an empty
sequence, true division by zero, `%` by zero (and `ast.parse`, already
modelled by the `parse` parameter).  `numpy.mean`/`numpy.std` return `nan`
with a warning rather than raising, so they stay total.  The `...O`
extractors repeat the source including its guards, with every
potentially-raising operation in `Option`; the claim-C6 theorem shows
they always succeed and agree with the total model above. -/

/-- Python `max(xs)`: `ValueError` on an empty sequence. -/
def listMaxO (xs : List ℕ) : Option ℕ :=
  match xs with
  | [] => none
  | x :: r => some (r.foldl max x)

/-- Python `min(xs)`: `ValueError` on an empty sequence. -/
def listMinO (xs : List ℕ) : Option ℕ :=
  match xs with
  | [] => none
  | x :: r => some (r.foldl min x)

/-- Python true division: `ZeroDivisionError` on a zero denominator. -/
def divO (a b : ℚ) : Option ℚ :=
  if b = 0 then none else some (a / b)

/-- Python `%` on naturals: raises on a zero modulus. -/
def modO (a b : ℕ) : Option ℕ :=
  if b = 0 then none else some (a % b)

/-- `_analyze_code_structure` with its two raising operations (`max`, the
final division) in `Option`, guards as in the source. -/
def analyzeCodeStructureO (code : String) : Option StructureFeatures := do
  let lines := pyLines code
  let nonEmpty := lines.filter (fun l => !isBlank l)
  let indentations := nonEmpty.map leadingWs
  let lineLengths := nonEmpty.map List.length
  let maxLen ← if !lineLengths.isEmpty then listMaxO lineLengths else some 0
  let ratio ←
    if !lines.isEmpty then divO ((lines.length - nonEmpty.length : ℕ) : ℚ) (lines.length : ℚ)
    else some 0
  some { avg_indentation := if !indentations.isEmpty then natMean indentations else 0
         indent_consistency := if 1 < indentations.length then npVarNat indentations else 0
         avg_line_length := if !lineLengths.isEmpty then natMean lineLengths else 0
         max_line_length := maxLen
         empty_lines_ratio := ratio }

/-- `_analyze_comments` with its division in `Option`. -/
def analyzeCommentsO (code : String) : Option CommentFeatures := do
  let cs := code.data
  let comments := pythonComments cs
  let docs := docstringCount cs
  let issues := (comments.map (fun c =>
    (if hasArticleIssue c then 1 else 0) + (if hasTenseIssue c then 1 else 0))).sum
  let ratio ←
    if !(pyLines code).isEmpty then
      divO ((comments.length + docs : ℕ) : ℚ) ((pyLines code).length : ℚ)
    else some 0
  some { comment_count := comments.length + docs
         comment_ratio := ratio
         comment_grammar_issues := issues
         has_docstrings := 0 < docs }

/-- The `sum(1 for indent in indentations if indent % min_indent == 0)`
generator, with `%` in `Option`: each indentation's remainder is taken in
turn. -/
def consistentCountO (indentations : List ℕ) (m : ℕ) : Option ℕ :=
  match indentations with
  | [] => some 0
  | i :: rest => do
    let r ← modO i m
    let c ← consistentCountO rest m
    some ((if r = 0 then 1 else 0) + c)

/-- `_check_indentation_consistency` with `min`, `%` and the division in
`Option`, guards as in the source. -/
def checkIndentationConsistencyO (lines : List (List Char)) : Option ℚ := do
  let indentations := (lines.filter (fun l => !isBlank l)).map leadingWs
  if indentations.isEmpty then some 1
  else do
    let m ← listMinO indentations
    if m = 0 then some (1/2)
    else do
      let cnt ← consistentCountO indentations m
      divO (cnt : ℚ) (indentations.length : ℚ)

/-- `_analyze_style_consistency` with its division in `Option`. -/
def analyzeStyleConsistencyO (code : String) : Option StyleFeatures := do
  let lines := pyLines code
  let totalOperators := (lines.map (fun l => (lineOperators l).length)).sum
  let spaced := (lines.map (fun l => ((lineOperators l).filter (opSpaced l)).length)).sum
  let spacing ← if 0 < totalOperators then divO (spaced : ℚ) (totalOperators : ℚ) else some 1
  let ci ← checkIndentationConsistencyO lines
  some { operator_spacing_consistency := spacing, consistent_indentation := ci }

/-- `extract_features` with the raising operations in `Option`
(`_analyze_naming_patterns` and `_analyze_semantic_patterns` contain no
raising operation; `_analyze_complexity` catches its parse failure
locally, so it is total as well). -/
def extractFeaturesO (parse : String → Option Ast) (code : String) : Option FeatureRecord := do
  let st ← analyzeCodeStructureO code
  let cm ← analyzeCommentsO code
  let nm := analyzeNamingPatterns code
  let cx := analyzeComplexity parse code
  let sty ← analyzeStyleConsistencyO code
  let sem := analyzeSemanticPatterns code
  some { lines_of_code := (pyLines code).length
         characters := code.data.length
         words := (runsBy (fun c => !pyWhitespace c) code.data).length
         avg_indentation := st.avg_indentation
         indent_consistency := st.indent_consistency
         avg_line_length := st.avg_line_length
         max_line_length := st.max_line_length
         empty_lines_ratio := st.empty_lines_ratio
         comment_count := cm.comment_count
         comment_ratio := cm.comment_ratio
         comment_grammar_issues := cm.comment_grammar_issues
         has_docstrings := cm.has_docstrings
         variable_count := nm.variable_count
         ai_variable_count := nm.ai_variable_count
         function_count := nm.function_count
         avg_variable_length := nm.avg_variable_length
         avg_function_length := nm.avg_function_length
         cyclomatic_complexity := cx.cyclomatic_complexity
         nesting_depth := cx.nesting_depth
         branch_count := cx.branch_count
         operator_spacing_consistency := sty.operator_spacing_consistency
         consistent_indentation := sty.consistent_indentation
         ai_pattern_matches := sem.ai_pattern_matches
         common_library_count := sem.common_library_count
         has_main_guard := sem.has_main_guard }

/-- `detect_ai_generated` with its division in `Option`. -/
def detectAiGeneratedO (parse : String → Option Ast) (code : String) : Option DetectionResult := do
  let features ← extractFeaturesO parse code
  let p := scorePass (scoringRules features)
  let pct ←
    if 0 < p.2 then do
      let q ← divO (p.1 : ℚ) (p.2 : ℚ)
      some (q * 100)
    else some 0
  some { is_ai_generated := decide (30 ≤ pct)
         ai_percentage := pyRound2 pct
         features := features
         analysis_summary := generateAnalysisSummary features pct }

/-! ### Concrete inputs used by witnesses and counterexamples -/

/-- A parser that succeeds exactly on the empty string, returning the
empty module — the behaviour of `ast.parse` on `""` (an empty `Module`
node, of non-decision kind, with no children). -/
def parseEmpty : String → Option Ast :=
  fun s => if s = "" then some (Ast.node .otherK []) else none

/-- A parser that fails on every input (every call raises `SyntaxError`). -/
def parseNone : String → Option Ast :=
  fun _ => none

/-- Two-line sample: an unindented line and a two-space-indented line.
Its indentations are `[0, 2]`: divisibility ratio `1/2`, `np.std` equal
to `1`. -/
def mixedIndentText : String := "a\n  b"

/-- A feature record on which no scoring predicate holds (the two ratio
signals are at their neutral value `1`, everything else at zero/false). -/
def quietRecord : FeatureRecord :=
  { lines_of_code := 0, characters := 0, words := 0, avg_indentation := 0,
    indent_consistency := 1, avg_line_length := 0, max_line_length := 0,
    empty_lines_ratio := 0, comment_count := 0, comment_ratio := 0,
    comment_grammar_issues := 0, has_docstrings := false, variable_count := 0,
    ai_variable_count := 0, function_count := 0, avg_variable_length := 0,
    avg_function_length := 0, cyclomatic_complexity := 1, nesting_depth := 0,
    branch_count := 0, operator_spacing_consistency := 1,
    consistent_indentation := 1, ai_pattern_matches := 0,
    common_library_count := 0, has_main_guard := false }

/-- Like `quietRecord` except that the two ratio signals are `0`, so the
indentation-consistency and operator-spacing rules fire. -/
def noisyRecord : FeatureRecord :=
  { quietRecord with indent_consistency := 0, operator_spacing_consistency := 0 }

/-- The feature record extracted from the empty string: the line list is
empty, so every count is zero, both ratio extractors return their neutral
values, the variance signal defaults to `0`, and parsing succeeds with an
empty module (complexity `1`, nesting depth `0`, branch count `0`). -/
def emptyFeatures : FeatureRecord :=
  { lines_of_code := 0, characters := 0, words := 0, avg_indentation := 0,
    indent_consistency := 0, avg_line_length := 0, max_line_length := 0,
    empty_lines_ratio := 0, comment_count := 0, comment_ratio := 0,
    comment_grammar_issues := 0, has_docstrings := false, variable_count := 0,
    ai_variable_count := 0, function_count := 0, avg_variable_length := 0,
    avg_function_length := 0, cyclomatic_complexity := 1, nesting_depth := 0,
    branch_count := 0, operator_spacing_consistency := 1,
    consistent_indentation := 1, ai_pattern_matches := 0,
    common_library_count := 0, has_main_guard := false }

/-! ## Theorems -/

/-- Justification for representing `numpy.std` by its square: for a
positive bound `c`, `Real.sqrt v < c` iff `v < c ^ 2`. -/
theorem sqrt_lt_iff_var_lt (v c : ℝ) (hc : 0 < c) :
    Real.sqrt v < c ↔ v < c ^ 2 :=
  Real.sqrt_lt' hc

/-- A conditionally added weight never exceeds the weight. -/
theorem ite_weight_le (b : Bool) (w : ℕ) : (if b then w else 0) ≤ w := by
  cases b <;> simp

/-- The scoring fold from an arbitrary accumulator: the first component
gains the sum of the fired weights, the second the sum of all weights. -/
theorem scorePassAux (rules : List (Bool × ℕ)) (a b : ℕ) :
    rules.foldl (fun acc r => (acc.1 + if r.1 then r.2 else 0, acc.2 + r.2)) (a, b) =
      (a + (rules.map (fun r => if r.1 then r.2 else 0)).sum,
       b + (rules.map Prod.snd).sum) := by
  induction rules generalizing a b with
  | nil => simp
  | cons r t ih => simp [ih, Nat.add_assoc]

/-- `ai_score` after the pass is the sum of the fired weights. -/
theorem scorePass_fst (rules : List (Bool × ℕ)) :
    (scorePass rules).1 = (rules.map (fun r => if r.1 then r.2 else 0)).sum := by
  rw [scorePass, scorePassAux]
  simp

/-- `max_score` after the pass is the sum of all weights. -/
theorem scorePass_snd (rules : List (Bool × ℕ)) :
    (scorePass rules).2 = (rules.map Prod.snd).sum := by
  rw [scorePass, scorePassAux]
  simp

/-- The fired-weight sum is bounded by the total-weight sum. -/
theorem sum_ite_le (rules : List (Bool × ℕ)) :
    (rules.map (fun r => if r.1 then r.2 else 0)).sum ≤ (rules.map Prod.snd).sum := by
  induction rules with
  | nil => simp
  | cons r t ih =>
    simp only [List.map_cons, List.sum_cons]
    exact Nat.add_le_add (ite_weight_le r.1 r.2) ih

/-- `ai_score ≤ max_score` for every rule table. -/
theorem scorePass_fst_le_snd (rules : List (Bool × ℕ)) :
    (scorePass rules).1 ≤ (scorePass rules).2 := by
  rw [scorePass_fst, scorePass_snd]
  exact sum_ite_le rules

/-- The unrounded percentage lies in `[0, 100]` for every feature record. -/
theorem aiPercentageRaw_bounds (f : FeatureRecord) :
    0 ≤ aiPercentageRaw f ∧ aiPercentageRaw f ≤ 100 := by
  simp only [aiPercentageRaw]
  have hle := scorePass_fst_le_snd (scoringRules f)
  split_ifs with h
  · refine ⟨by positivity, ?_⟩
    rw [div_mul_eq_mul_div, div_le_iff (by exact_mod_cast h)]
    have h1 : ((scorePass (scoringRules f)).1 : ℚ) ≤ ((scorePass (scoringRules f)).2 : ℚ) := by
      exact_mod_cast hle
    linarith
  · norm_num

/-- Rounding to two decimals preserves the `[0, 100]` range. -/
theorem pyRound2_bounds (q : ℚ) (h0 : 0 ≤ q) (h1 : q ≤ 100) :
    0 ≤ pyRound2 q ∧ pyRound2 q ≤ 100 := by
  have key : ∀ m : ℤ, 0 ≤ m → m ≤ 10000 → 0 ≤ (m : ℚ) / 100 ∧ (m : ℚ) / 100 ≤ 100 := by
    intro m hm0 hm1
    constructor
    · positivity
    · rw [div_le_iff (by norm_num : (0 : ℚ) < 100)]
      have : (m : ℚ) ≤ 10000 := by exact_mod_cast hm1
      linarith
  have hy1 : q * 100 ≤ 10000 := by linarith
  have hy0 : 0 ≤ q * 100 := by positivity
  have hn0 : (0 : ℤ) ≤ ⌊q * 100⌋ := Int.floor_nonneg.mpr hy0
  have hnle : (⌊q * 100⌋ : ℚ) ≤ q * 100 := Int.floor_le _
  have hn1 : ⌊q * 100⌋ ≤ 10000 := by
    have : (⌊q * 100⌋ : ℚ) ≤ 10000 := le_trans hnle hy1
    exact_mod_cast this
  unfold pyRound2
  refine key _ ?_ ?_
  · split_ifs <;> omega
  · split_ifs with hA hB hC
    · exact hn1
    · have : (⌊q * 100⌋ : ℚ) < 10000 := by linarith
      have h' : ⌊q * 100⌋ < 10000 := by exact_mod_cast this
      omega
    · exact hn1
    · have hhalf : q * 100 - (⌊q * 100⌋ : ℚ) = 1/2 := le_antisymm (not_lt.mp hB) (not_lt.mp hA)
      have : (⌊q * 100⌋ : ℚ) < 10000 := by linarith
      have h' : ⌊q * 100⌋ < 10000 := by exact_mod_cast this
      omega

/-- C1: for every input text — including the empty string, all-whitespace
text and texts with very long lines — the `ai_percentage` returned by the
detector's analyze operation lies in `[0, 100]`; likewise for the `app.py`
detector, whose percentage depends on its thirteen checks only through
their boolean values. -/
theorem ai_percentage_in_range :
    (∀ (parse : String → Option Ast) (code : String),
        0 ≤ (detectAiGenerated parse code).ai_percentage ∧
          (detectAiGenerated parse code).ai_percentage ≤ 100) ∧
    (∀ c : AppChecks, 0 ≤ appAiLikelihood c ∧ appAiLikelihood c ≤ 100) := by
  constructor
  · intro parse code
    have hb := aiPercentageRaw_bounds (extractFeatures parse code)
    have hr := pyRound2_bounds _ hb.1 hb.2
    simpa [detectAiGenerated] using hr
  · intro c
    unfold appAiLikelihood
    have hlen : ((appChecksList c).length : ℚ) = 13 := by simp [appChecksList]
    have hcount : (appChecksList c).countP id ≤ 13 := by
      have h := List.countP_le_length (p := id) (l := appChecksList c)
      simpa [appChecksList] using h
    constructor
    · positivity
    · rw [hlen, div_mul_eq_mul_div, div_le_iff (by norm_num : (0 : ℚ) < 13)]
      have : ((appChecksList c).countP id : ℚ) ≤ 13 := by exact_mod_cast hcount
      linarith

/-- C2: one scoring pass adds each weight to `max_score` unconditionally
and to `ai_score` only when the predicate holds; hence `max_score` equals
the sum of the configured weights (`Config.SCORING_WEIGHTS`) no matter
how many predicates fired, and `ai_score ≤ max_score`. -/
theorem scoring_pass_invariant (f : FeatureRecord) :
    (scorePass (scoringRules f)).2 = Config.SCORING_WEIGHTS.sum ∧
    (scorePass (scoringRules f)).1 ≤ (scorePass (scoringRules f)).2 := by
  refine ⟨?_, scorePass_fst_le_snd _⟩
  rw [scorePass_snd]
  rfl

/-- C3: the returned `is_ai_generated` flag is true exactly when the
computed (unrounded) percentage reaches the threshold constant, whose
default value is `30`. -/
theorem threshold_decision (parse : String → Option Ast) (code : String) :
    ((detectAiGenerated parse code).is_ai_generated = true ↔
      Config.AI_DETECTION_THRESHOLD ≤ aiPercentageRaw (extractFeatures parse code)) ∧
    Config.AI_DETECTION_THRESHOLD = 30 := by
  refine ⟨?_, rfl⟩
  simp [detectAiGenerated, Config.AI_DETECTION_THRESHOLD]

/-- C5: whenever building the syntax tree fails, the complexity analyzer
returns cyclomatic complexity 1, nesting depth 1, branch count 0 — the
parse error is absorbed, not propagated (the analyzer is a total
function). -/
theorem parse_failure_defaults (parse : String → Option Ast) (code : String)
    (h : parse code = none) :
    analyzeComplexity parse code =
      { cyclomatic_complexity := 1, nesting_depth := 1, branch_count := 0 } := by
  simp [analyzeComplexity, h]

/-- Witness for `parse_failure_defaults` at a concrete failing parse. -/
theorem parse_failure_defaults_witness :
    analyzeComplexity parseNone "def f(:" =
      { cyclomatic_complexity := 1, nesting_depth := 1, branch_count := 0 } :=
  parse_failure_defaults parseNone "def f(:" rfl

/-- Weight monotonicity of a single rule under predicate implication. -/
theorem iteMono {p q : Prop} [Decidable p] [Decidable q] {w : ℕ} (h : p → q) :
    (if p then w else 0) ≤ (if q then w else 0) := by
  split_ifs <;> simp_all

/-- C7: if everything that fires on record `B` also fires on record `A`
(rule by rule over the twelve predicates of the table), then `A` scores at
least as high as `B`. -/
theorem score_superset_monotone (A B : FeatureRecord)
    (h : (3 < B.ai_variable_count → 3 < A.ai_variable_count) ∧
         (2 < B.comment_grammar_issues → 2 < A.comment_grammar_issues) ∧
         (2 < B.common_library_count → 2 < A.common_library_count) ∧
         (2 < B.ai_pattern_matches → 2 < A.ai_pattern_matches) ∧
         (B.indent_consistency < (8/10) ^ 2 → A.indent_consistency < (8/10) ^ 2) ∧
         (B.operator_spacing_consistency < 7/10 → A.operator_spacing_consistency < 7/10) ∧
         (5 < B.function_count → 5 < A.function_count) ∧
         (5 < B.cyclomatic_complexity → 5 < A.cyclomatic_complexity) ∧
         ((100 : ℚ) < B.avg_line_length → (100 : ℚ) < A.avg_line_length) ∧
         (120 < B.max_line_length → 120 < A.max_line_length) ∧
         (B.has_docstrings = true → A.has_docstrings = true) ∧
         (B.has_main_guard = true → A.has_main_guard = true)) :
    aiPercentageRaw B ≤ aiPercentageRaw A := by
  obtain ⟨h1, h2, h3, h4, h5, h6, h7, h8, h9, h10, h11, h12⟩ := h
  have hsc : (scorePass (scoringRules B)).1 ≤ (scorePass (scoringRules A)).1 := by
    rw [scorePass_fst, scorePass_fst]
    simp only [scoringRules, List.map_cons, List.map_nil, List.sum_cons, List.sum_nil,
      decide_eq_true_eq, Nat.add_zero]
    refine Nat.add_le_add (iteMono h1) ?_
    refine Nat.add_le_add (iteMono h2) ?_
    refine Nat.add_le_add (iteMono h3) ?_
    refine Nat.add_le_add (iteMono h4) ?_
    refine Nat.add_le_add (iteMono h5) ?_
    refine Nat.add_le_add (iteMono h6) ?_
    refine Nat.add_le_add (iteMono h7) ?_
    refine Nat.add_le_add (iteMono h8) ?_
    refine Nat.add_le_add (iteMono h9) ?_
    refine Nat.add_le_add (iteMono h10) ?_
    exact Nat.add_le_add (iteMono h11) (iteMono h12)
  have h98B : (scorePass (scoringRules B)).2 = 98 := by rw [scorePass_snd]; rfl
  have h98A : (scorePass (scoringRules A)).2 = 98 := by rw [scorePass_snd]; rfl
  have hc : ((scorePass (scoringRules B)).1 : ℚ) ≤ ((scorePass (scoringRules A)).1 : ℚ) := by
    exact_mod_cast hsc
  simp only [aiPercentageRaw, h98A, h98B]
  norm_num
  linarith

/-- Witness for `score_superset_monotone`: the all-quiet record scores no
more than the record firing the two ratio rules. -/
theorem score_superset_monotone_witness :
    aiPercentageRaw quietRecord ≤ aiPercentageRaw noisyRecord :=
  score_superset_monotone noisyRecord quietRecord
    ⟨id, id, id, id,
     fun _ => by norm_num [noisyRecord, quietRecord],
     fun _ => by norm_num [noisyRecord, quietRecord],
     id, id, id, id, id, id⟩

/-- Folding `min` never rises above the initial value. -/
theorem foldl_min_le_init (r : List ℕ) (z : ℕ) : r.foldl min z ≤ z := by
  induction r generalizing z with
  | nil => simp
  | cons y t ih =>
    simp only [List.foldl_cons]
    exact le_trans (ih (min z y)) (min_le_left z y)

/-- Folding `min` is bounded by every member. -/
theorem foldl_min_le_mem : ∀ (r : List ℕ) (z a : ℕ), a ∈ r → r.foldl min z ≤ a
  | y :: t, z, a, h => by
    simp only [List.foldl_cons]
    rcases List.mem_cons.mp h with rfl | h2
    · exact le_trans (foldl_min_le_init t (min z a)) (min_le_right z a)
    · exact foldl_min_le_mem t (min z y) a h2

/-- `min(xs)` is bounded by every member of `xs`. -/
theorem listMinD_le_of_mem (xs : List ℕ) (d a : ℕ) (h : a ∈ xs) : listMinD xs d ≤ a := by
  cases xs with
  | nil => cases h
  | cons x r =>
    simp only [listMinD]
    rcases List.mem_cons.mp h with rfl | h2
    · exact foldl_min_le_init r a
    · exact foldl_min_le_mem r x a h2

/-- C10: the indentation-consistency-ratio extractor returns `1.0` when
there is no non-blank line, and `0.5` as soon as some non-blank line
starts at column zero (the minimal indentation is then `0`), regardless
of the other lines. -/
theorem indentation_consistency_edges (lines : List (List Char)) :
    ((lines.filter (fun l => !isBlank l)) = [] → checkIndentationConsistency lines = 1) ∧
    ((∃ l ∈ lines, isBlank l = false ∧ leadingWs l = 0) →
      checkIndentationConsistency lines = 1/2) := by
  constructor
  · intro h
    simp [checkIndentationConsistency, h]
  · rintro ⟨l, hl, hb, hw⟩
    have hmem : (0 : ℕ) ∈ (lines.filter (fun l => !isBlank l)).map leadingWs := by
      rw [← hw]
      exact List.mem_map_of_mem _ (List.mem_filter.mpr ⟨hl, by simp [hb]⟩)
    have h1 : ((lines.filter (fun l => !isBlank l)).map leadingWs).isEmpty = false := by
      have hne := List.ne_nil_of_mem hmem
      simp [List.isEmpty_iff, hne]
    have h2 : listMinD ((lines.filter (fun l => !isBlank l)).map leadingWs) 0 = 0 :=
      Nat.le_zero.mp (listMinD_le_of_mem _ 0 0 hmem)
    simp [checkIndentationConsistency, h1, h2]

/-- Witness for `indentation_consistency_edges`: the empty line list, and
a two-line sample whose first line is unindented. -/
theorem indentation_consistency_edges_witness :
    checkIndentationConsistency [] = 1 ∧
    checkIndentationConsistency [['a'], [' ', ' ', 'b']] = 1/2 :=
  ⟨(indentation_consistency_edges []).1 rfl,
   (indentation_consistency_edges [['a'], [' ', ' ', 'b']]).2 (by decide)⟩

/-- Guarded `max` agrees with the total model on nonempty input. -/
theorem listMaxO_eq (xs : List ℕ) (h : xs.isEmpty = false) :
    listMaxO xs = some (listMaxD xs 0) := by
  cases xs with
  | nil => simp at h
  | cons x r => rfl

/-- Guarded `min` agrees with the total model on nonempty input. -/
theorem listMinO_eq (xs : List ℕ) (h : xs.isEmpty = false) :
    listMinO xs = some (listMinD xs 0) := by
  cases xs with
  | nil => simp at h
  | cons x r => rfl

/-- The structural extractor never raises: its guards cover the raising
operations. -/
theorem analyzeCodeStructureO_eq (code : String) :
    analyzeCodeStructureO code = some (analyzeCodeStructure code) := by
  unfold analyzeCodeStructureO analyzeCodeStructure
  by_cases h2 : (pyLines code).isEmpty
  · have h2' : pyLines code = [] := by simpa [List.isEmpty_iff] using h2
    simp [h2', divO, listMaxO, listMaxD]
  · have h2' : pyLines code ≠ [] := by simpa [List.isEmpty_iff] using h2
    have hlen : ((pyLines code).length : ℚ) ≠ 0 := by
      exact_mod_cast fun hc => h2' (List.length_eq_zero.mp (by exact_mod_cast hc))
    by_cases h1 : (((pyLines code).filter (fun l => !isBlank l)).map List.length).isEmpty
    · simp [h1, h2, divO, hlen, listMaxO, listMaxD]
    · have h1' : (((pyLines code).filter (fun l => !isBlank l)).map List.length).isEmpty = false := by
        simpa using h1
      simp [h1', h2, divO, hlen, listMaxO_eq _ h1']

/-- The comment extractor never raises. -/
theorem analyzeCommentsO_eq (code : String) :
    analyzeCommentsO code = some (analyzeComments code) := by
  unfold analyzeCommentsO analyzeComments
  by_cases h2 : (pyLines code).isEmpty
  · simp [h2, divO]
  · have h2' : pyLines code ≠ [] := by simpa [List.isEmpty_iff] using h2
    have hlen : ((pyLines code).length : ℚ) ≠ 0 := by
      exact_mod_cast fun hc => h2' (List.length_eq_zero.mp (by exact_mod_cast hc))
    simp [h2, divO, hlen]

/-- The consistent-indentation counter succeeds for a nonzero modulus and
agrees with the direct count. -/
theorem consistentCountO_eq (xs : List ℕ) (m : ℕ) (hm : m ≠ 0) :
    consistentCountO xs m = some (xs.countP (fun i => i % m = 0)) := by
  induction xs with
  | nil => rfl
  | cons x t ih =>
    by_cases hx : x % m = 0 <;>
      simp [consistentCountO, modO, hm, ih, List.countP_cons, hx, Nat.add_comm]

/-- The indentation-consistency extractor never raises. -/
theorem checkIndentationConsistencyO_eq (lines : List (List Char)) :
    checkIndentationConsistencyO lines = some (checkIndentationConsistency lines) := by
  unfold checkIndentationConsistencyO checkIndentationConsistency
  by_cases h1 : ((lines.filter (fun l => !isBlank l)).map leadingWs).isEmpty
  · simp [h1]
  · have h1' : ((lines.filter (fun l => !isBlank l)).map leadingWs).isEmpty = false := by
      simpa using h1
    have hne : (lines.filter (fun l => !isBlank l)).map leadingWs ≠ [] := by
      simpa [List.isEmpty_iff] using h1
    have hlen : (((lines.filter (fun l => !isBlank l)).map leadingWs).length : ℚ) ≠ 0 := by
      exact_mod_cast fun hc => hne (List.length_eq_zero.mp (by exact_mod_cast hc))
    by_cases h2 : listMinD ((lines.filter (fun l => !isBlank l)).map leadingWs) 0 = 0
    · simp [h1', h2, listMinO_eq _ h1']
    · have hfil : lines.filter (fun l => !isBlank l) ≠ [] := fun hc => hne (by simp [hc])
      obtain ⟨x, hx⟩ := List.exists_mem_of_ne_nil _ hfil
      have hx2 := List.mem_filter.mp hx
      simp [h1', h2, listMinO_eq _ h1', consistentCountO_eq _ _ h2, divO, hlen]
      exact ⟨x, hx2.1, by simpa using hx2.2⟩

/-- The style extractor never raises. -/
theorem analyzeStyleConsistencyO_eq (code : String) :
    analyzeStyleConsistencyO code = some (analyzeStyleConsistency code) := by
  unfold analyzeStyleConsistencyO analyzeStyleConsistency
  simp only [checkIndentationConsistencyO_eq]
  by_cases h : 0 < ((pyLines code).map (fun l => (lineOperators l).length)).sum
  · have hq2 : (((pyLines code).map (Nat.cast ∘ fun l => (lineOperators l).length) : List ℚ)).sum ≠ 0 := by
      rw [← List.map_map, ← Nat.cast_list_sum]
      exact_mod_cast Nat.pos_iff_ne_zero.mp h
    simp [h, divO, hq2]
  · simp [h, divO]

/-- Feature extraction never raises. -/
theorem extractFeaturesO_eq (parse : String → Option Ast) (code : String) :
    extractFeaturesO parse code = some (extractFeatures parse code) := by
  unfold extractFeaturesO extractFeatures
  rw [analyzeCodeStructureO_eq, analyzeCommentsO_eq, analyzeStyleConsistencyO_eq]
  rfl

/-- C6: every feature extractor and the scoring engine are total: on every
input text (and every parser behaviour), the exception-aware versions —
in which Python's raising operations return `none` — succeed and agree
with the total model, so the pipeline never propagates an exception and
degrades to the guarded defaults instead. -/
theorem extractors_and_scoring_total :
    (∀ (parse : String → Option Ast) (code : String),
        extractFeaturesO parse code = some (extractFeatures parse code)) ∧
    (∀ (parse : String → Option Ast) (code : String),
        detectAiGeneratedO parse code = some (detectAiGenerated parse code)) := by
  refine ⟨extractFeaturesO_eq, fun parse code => ?_⟩
  have h98 : (scorePass (scoringRules (extractFeatures parse code))).2 = 98 := by
    rw [scorePass_snd]; rfl
  unfold detectAiGeneratedO detectAiGenerated
  rw [extractFeaturesO_eq]
  simp only [Option.bind_eq_bind', Option.some_bind']
  rw [h98]
  norm_num [divO, aiPercentageRaw, h98]

/-- Extraction on the empty string gives exactly `emptyFeatures`. -/
theorem extractFeatures_empty : extractFeatures parseEmpty "" = emptyFeatures := rfl

/-- C4 counterexample: on the empty string the claim fails — in
particular the feature record's nesting depth is `0`, not `1` (and the
percentage is `8.16`, not `0`): the empty string parses successfully, so
the parse-failure defaults `{1,1,0}` are not used, and the
indentation-consistency rule fires vacuously. -/
theorem empty_input_claim_false :
    ¬ ((detectAiGenerated parseEmpty "").ai_percentage = 0 ∧
       (detectAiGenerated parseEmpty "").is_ai_generated = false ∧
       (extractFeatures parseEmpty "").cyclomatic_complexity = 1 ∧
       (extractFeatures parseEmpty "").nesting_depth = 1 ∧
       (extractFeatures parseEmpty "").branch_count = 0) := by
  intro hcl
  have hn := hcl.2.2.2.1
  rw [extractFeatures_empty] at hn
  simp [emptyFeatures] at hn

/-- The scoring rules evaluated on the empty-string record: only the
indentation-consistency rule fires (its variance signal defaulted to
`0 < 0.8 ^ 2`). -/
theorem scoringRules_empty :
    scoringRules emptyFeatures =
      [(false, 20), (false, 15), (false, 10), (false, 15), (true, 8), (false, 8),
       (false, 6), (false, 6), (false, 3), (false, 3), (false, 2), (false, 2)] := by
  have e5 : decide ((0 : ℚ) < (8/10) ^ 2) = true := decide_eq_true (by norm_num)
  have e6 : decide ((1 : ℚ) < 7/10) = false := decide_eq_false_iff_not.mpr (by norm_num)
  have e9 : decide ((100 : ℚ) < 0) = false := decide_eq_false_iff_not.mpr (by norm_num)
  have d3 : decide (3 < (0 : ℕ)) = false := rfl
  have d2 : decide (2 < (0 : ℕ)) = false := rfl
  have d5 : decide (5 < (0 : ℕ)) = false := rfl
  have d51 : decide (5 < (1 : ℕ)) = false := rfl
  have d120 : decide (120 < (0 : ℕ)) = false := rfl
  simp only [scoringRules, emptyFeatures, e5, e6, e9, d3, d2, d5, d51, d120]

/-- The unrounded percentage of the empty-string record: `8/98·100`. -/
theorem aiPercentageRaw_empty : aiPercentageRaw emptyFeatures = 400/49 := by
  have hpass : scorePass (scoringRules emptyFeatures) = (8, 98) := by
    rw [scoringRules_empty]
    rfl
  simp only [aiPercentageRaw, hpass]
  norm_num

/-- Rounding `400/49` to two decimals gives `8.16`. -/
theorem pyRound2_400_49 : pyRound2 (400/49) = 204/25 := by
  have hfl : ⌊(400/49 : ℚ) * 100⌋ = 816 := by
    rw [Int.floor_eq_iff]
    constructor <;> norm_num
  unfold pyRound2
  rw [hfl]
  norm_num

/-- C4 amended: analyzing the empty string yields `ai_percentage = 8.16`
(the indentation rule fires because the `np.std` signal defaults to `0`),
`is_ai_generated = False`, and complexity features cyclomatic `1`,
nesting depth `0`, branch count `0` — the `{1,1,0}` defaults apply only
on parse failure, and `""` parses successfully into an empty module. -/
theorem empty_input_behavior (parse : String → Option Ast)
    (h : parse "" = some (Ast.node .otherK [])) :
    (detectAiGenerated parse "").ai_percentage = 204/25 ∧
    (detectAiGenerated parse "").is_ai_generated = false ∧
    (extractFeatures parse "").cyclomatic_complexity = 1 ∧
    (extractFeatures parse "").nesting_depth = 0 ∧
    (extractFeatures parse "").branch_count = 0 := by
  have hc : analyzeComplexity parse "" = analyzeComplexity parseEmpty "" := by
    simp [analyzeComplexity, h, parseEmpty]
  have he : extractFeatures parse "" = extractFeatures parseEmpty "" := by
    unfold extractFeatures
    rw [hc]
  have hd : detectAiGenerated parse "" = detectAiGenerated parseEmpty "" := by
    unfold detectAiGenerated
    rw [he]
  have hpct : (detectAiGenerated parseEmpty "").ai_percentage = 204/25 := by
    simp only [detectAiGenerated, extractFeatures_empty, aiPercentageRaw_empty, pyRound2_400_49]
  have hia : (detectAiGenerated parseEmpty "").is_ai_generated = false := by
    simp only [detectAiGenerated, extractFeatures_empty, aiPercentageRaw_empty]
    exact decide_eq_false_iff_not.mpr (by norm_num)
  refine ⟨by rw [hd]; exact hpct, by rw [hd]; exact hia, ?_, ?_, ?_⟩ <;>
    (rw [he, extractFeatures_empty]; rfl)

/-- Witness for `empty_input_behavior` at the empty-module parser. -/
theorem empty_input_behavior_witness :
    (detectAiGenerated parseEmpty "").ai_percentage = 204/25 ∧
    (detectAiGenerated parseEmpty "").is_ai_generated = false ∧
    (extractFeatures parseEmpty "").cyclomatic_complexity = 1 ∧
    (extractFeatures parseEmpty "").nesting_depth = 0 ∧
    (extractFeatures parseEmpty "").branch_count = 0 :=
  empty_input_behavior parseEmpty rfl

/-- The variance of the two-line sample's indentations `[0, 2]` is `1`
(so its `np.std` is `1`, not below `0.8`). -/
theorem npVarNat_mixed : npVarNat [0, 2] = 1 := by
  norm_num [npVarNat, natMean]

/-- C8 counterexample: on `"a\n  b"` the divisibility ratio is `1/2`,
below `0.8`, yet the indentation rule does not fire — it reads the
`np.std` signal (equal to `1` here), not the ratio. -/
theorem indent_rule_counterexample :
    ¬ ((((scoringRules (extractFeatures parseNone mixedIndentText)).getD 4 (false, 0)).1 = true) ↔
       (extractFeatures parseNone mixedIndentText).consistent_indentation < 8/10) := by
  have hvar : (extractFeatures parseNone mixedIndentText).indent_consistency = npVarNat [0, 2] := rfl
  have hflag : ((scoringRules (extractFeatures parseNone mixedIndentText)).getD 4 (false, 0)).1 =
      decide ((extractFeatures parseNone mixedIndentText).indent_consistency < (8/10) ^ 2) := rfl
  have hfl : ((scoringRules (extractFeatures parseNone mixedIndentText)).getD 4 (false, 0)).1 = false := by
    rw [hflag, hvar, npVarNat_mixed]
    exact decide_eq_false_iff_not.mpr (by norm_num)
  have hratio : (extractFeatures parseNone mixedIndentText).consistent_indentation = 1/2 := rfl
  intro hiff
  have hcontra := hiff.mpr (by rw [hratio]; norm_num)
  rw [hfl] at hcontra
  simp at hcontra

/-- C8 amended: the fifth scoring rule reads the `indent_consistency`
feature — the `np.std` of the non-blank lines' indentations, represented
here by the variance, with `std < 0.8` iff `variance < 0.8 ^ 2` — and
fires exactly when that signal is below the bound; the divisibility ratio
is computed into the separate `consistent_indentation` feature, which
scoring never reads. -/
theorem indent_rule_semantics (parse : String → Option Ast) (code : String) :
    ((((scoringRules (extractFeatures parse code)).getD 4 (false, 0)).1 = true) ↔
      (extractFeatures parse code).indent_consistency < (8/10) ^ 2) ∧
    (extractFeatures parse code).indent_consistency =
      (if 1 < (((pyLines code).filter (fun l => !isBlank l)).map leadingWs).length
       then npVarNat (((pyLines code).filter (fun l => !isBlank l)).map leadingWs)
       else 0) ∧
    (extractFeatures parse code).consistent_indentation =
      checkIndentationConsistency (pyLines code) := by
  refine ⟨⟨fun h => of_decide_eq_true h, fun h => decide_eq_true h⟩, rfl, rfl⟩

/-- The scoring rules all fail on `quietRecord`. -/
theorem scoringRules_quiet :
    scoringRules quietRecord =
      [(false, 20), (false, 15), (false, 10), (false, 15), (false, 8), (false, 8),
       (false, 6), (false, 6), (false, 3), (false, 3), (false, 2), (false, 2)] := by
  have e5 : decide ((1 : ℚ) < (8/10) ^ 2) = false := decide_eq_false_iff_not.mpr (by norm_num)
  have e6 : decide ((1 : ℚ) < 7/10) = false := decide_eq_false_iff_not.mpr (by norm_num)
  have e9 : decide ((100 : ℚ) < 0) = false := decide_eq_false_iff_not.mpr (by norm_num)
  have d3 : decide (3 < (0 : ℕ)) = false := rfl
  have d2 : decide (2 < (0 : ℕ)) = false := rfl
  have d5 : decide (5 < (0 : ℕ)) = false := rfl
  have d51 : decide (5 < (1 : ℕ)) = false := rfl
  have d120 : decide (120 < (0 : ℕ)) = false := rfl
  simp only [scoringRules, quietRecord, e5, e6, e9, d3, d2, d5, d51, d120]

/-- C9 counterexample: on a record firing no rule the percentage is `0`
and the summary is the tier clause `"Appears to be human-written"`, not
the documented `"No significant patterns detected"` fallback (which is
unreachable, since the tier clause is always appended). -/
theorem summary_fallback_counterexample :
    aiPercentageRaw quietRecord = 0 ∧
    (scorePass (scoringRules quietRecord)).1 = 0 ∧
    generateAnalysisSummary quietRecord (aiPercentageRaw quietRecord) ≠
      "No significant patterns detected" := by
  have hpass : scorePass (scoringRules quietRecord) = (0, 98) := by
    rw [scoringRules_quiet]
    rfl
  have hraw : aiPercentageRaw quietRecord = 0 := by
    simp only [aiPercentageRaw, hpass]
    norm_num
  have f5 : ¬ ((1 : ℚ) < (8/10) ^ 2) := by norm_num
  have f50 : ¬ ((50 : ℚ) ≤ 0) := by norm_num
  have f30 : ¬ ((30 : ℚ) ≤ 0) := by norm_num
  have hsum : generateAnalysisSummary quietRecord 0 = "Appears to be human-written" := by
    simp [generateAnalysisSummary, summaryParts, summaryClauses, tierClause, quietRecord,
      f5, f50, f30, String.intercalate]
    rfl
  refine ⟨hraw, by rw [hpass], ?_⟩
  rw [hraw, hsum]
  decide

/-- C9 amended: the summary appends a fixed clause for each of the five
rules that have clauses (generic naming, comment grammar, library use,
indentation, function density), then always appends the percentage-band
tier clause, and joins with `"; "`; the parts list is therefore never
empty, so the `"No significant patterns detected"` fallback is never
returned. -/
theorem summary_structure (f : FeatureRecord) (pct : ℚ) :
    summaryParts f pct ≠ [] ∧
    generateAnalysisSummary f pct = String.intercalate "; " (summaryParts f pct) ∧
    tierClause pct ∈ summaryParts f pct := by
  have hne : summaryParts f pct ≠ [] := by
    intro hcontra
    have hlen := congrArg List.length hcontra
    simp [summaryParts] at hlen
  refine ⟨hne, ?_, ?_⟩
  · have hemp : (summaryParts f pct).isEmpty = false := by
      simpa [List.isEmpty_iff] using hne
    simp [generateAnalysisSummary, hemp]
  · unfold summaryParts
    simp

end Detect
